import Mathlib

/-!
Shallow embedding of the vaex websocket server protocol layer
(`packages/vaex-server/vaex/server/tornado_server.py`).

Modelling conventions:
* Python `None`-or-string token values are `Option String` (`none` = `None`).
* Python truthiness of such a value: `None` and `""` are falsy.
* Opaque external payloads (datasets, state blobs, encoded tasks, results)
  are modelled as `Nat` handles; the execution engine, codec and RMI target
  are external collaborators and appear as an abstract `Engine` record of
  functions, each returning `Except PyExc _` where the Python call may raise.
* Fractional progress values are modelled as rationals (`ℚ`); the float
  literal `0.05` of the source is the exact rational `0.05`.
* Cross-thread `ioloop.add_callback` delivery is modelled as immediate
  in-order delivery: each scheduled `do()` runs before the next progress
  call is processed.
* `KeyError` messages drop the quotes Python's `str` adds around the key.
-/

namespace VaexServer

/-- A Python exception reduced to what `exception(e)` (tornado_server.py
line 31) puts on the wire: class name and message string. -/
structure PyExc where
  cls : String
  msg : String
deriving Repr, DecidableEq

/-- A Python `None`-or-`str` value (tokens on both sides of the auth gate). -/
abbrev Tok := Option String

/-- Python truthiness of a `None`-or-`str` value: `None` and `""` are falsy. -/
def truthy : Tok → Bool
  | none => false
  | some s => !(s == "")

/-- Line 66: `trusted = token_trusted == self.webserver.token_trusted and token_trusted`,
boolean-ized (Python `and` yields the right operand, used as a boolean). -/
def trustedOf (server_tt rtt : Tok) : Bool :=
  (rtt == server_tt) && truthy rtt

/-- Lines 68-69: the authorization condition guarding the dispatch.
`authorized = (token == server.token) or (server.token_trusted and
token_trusted == server.token_trusted)`. -/
def authorized (stoken stt rtoken rtt : Tok) : Bool :=
  (rtoken == stoken) || (truthy stt && (rtt == stt))

/-- Dataset handles are opaque to the protocol layer. -/
abbrev DataSet := Nat

/-- The dataset catalog (`df_map`): name-to-dataset association list. -/
abbrev Catalog := List (String × DataSet)

/-- Contents of one LRU cache; opaque to the handler. -/
abbrev Cache := List (Nat × Nat)

/-- The `msg` dict of a request, with each command-specific field present
(`some`) or absent (`none`, so that subscripting raises `KeyError`). -/
structure Msg where
  command : Option String
  df : Option String
  state : Option Nat
  tasks : Option Nat
  method : Option String
  args : Option Nat
  kwargs : Option Nat
deriving Repr, DecidableEq

/-- The `auth` dict: each key may be absent, and when present holds a
`None`-or-`str` value. -/
structure AuthCtx where
  token : Option Tok
  token_trusted : Option Tok
deriving Repr, DecidableEq

/-- An inbound websocket frame: either `deserialize` raises, or it yields a
dict whose three envelope keys may each be present or absent. -/
inductive Inbound where
  | garbage (e : PyExc)
  | envelope (msg_id : Option String) (msg : Option Msg) (auth : Option AuthCtx)
deriving Repr, DecidableEq

/-- Payload of an outbound frame (`{result: …}`, `{progress: f}` or
`{exception: {class, msg}}`). -/
inductive Payload where
  | result (r : Nat)
  | progress (f : ℚ)
  | exception (cls : String) (msg : String)
deriving Repr, DecidableEq

/-- One outbound frame `{msg_id, msg: payload}`. -/
structure Frame where
  msg_id : String
  payload : Payload
deriving Repr, DecidableEq

/-- Shared-state operations the handler performs; cache operations are in
the type so that their absence from every trace is expressible. -/
inductive Effect where
  | catalogGet (name : String)
  | cacheGet (k : Nat)
  | cachePut (k : Nat)
  | selectionCacheGet (k : Nat)
  | selectionCachePut (k : Nat)
  | listRun
  | execRun (ds : DataSet) (tasks : List Nat)
  | rmiRun (method : String)
deriving Repr, DecidableEq

/-- Whether an effect touches one of the two result caches. -/
def Effect.isCacheOp : Effect → Bool
  | .cacheGet _ => true
  | .cachePut _ => true
  | .selectionCacheGet _ => true
  | .selectionCachePut _ => true
  | _ => false

/-- Server-side shared state visible to one handler: the configured tokens,
the dataset catalog and the two LRU caches (`initialize`, lines 41-47). -/
structure ServerState where
  token : Tok
  token_trusted : Tok
  catalog : Catalog
  cache : Cache
  cache_selection : Cache
deriving Repr, DecidableEq

/-- External collaborators: codec, execution engine and RMI surface.
`exec_progress` is the sequence of fractions the engine feeds to the
progress callback during `service.execute`; `exec_result` its outcome. -/
structure Engine where
  allowed_method_names : List String
  list_result : Catalog → Nat
  copy : DataSet → DataSet
  state_set : DataSet → Nat → Bool → Except PyExc DataSet
  decode_tasks : Nat → DataSet → Except PyExc (List Nat)
  exec_progress : DataSet → List Nat → List ℚ
  exec_result : DataSet → List Nat → Except PyExc Nat
  rmi : DataSet → String → Nat → Nat → Except PyExc Nat
  encode_eval : Nat → Nat
  encode_rmi : Nat → Nat
  encode_task_results : Nat → Nat

/-- Python dict subscript: `d[k]` raises `KeyError` when the key is absent. -/
def getKey {α : Type} (v : Option α) (k : String) : Except PyExc α :=
  match v with
  | none => .error ⟨"KeyError", k⟩
  | some x => .ok x

/-- `self.service[name]`: catalog lookup, raising when the name is absent. -/
def lookupCatalog (cat : Catalog) (name : String) : Except PyExc DataSet :=
  match cat.lookup name with
  | none => .error ⟨"KeyError", name⟩
  | some ds => .ok ds

/-- Line 62: `msg_id, msg, auth = websocket_msg['msg_id'], websocket_msg['msg'],
websocket_msg['auth']` after `deserialize` — any failure propagates before
`msg_id` is (re)bound. -/
def decodeEnvelope : Inbound → Except PyExc (String × Msg × AuthCtx)
  | .garbage e => .error e
  | .envelope mid m a =>
    match getKey mid "msg_id" with
    | .error e => .error e
    | .ok i =>
      match getKey m "msg" with
      | .error e => .error e
      | .ok mm =>
        match getKey a "auth" with
        | .error e => .error e
        | .ok aa => .ok (i, mm, aa)

/-- Line 84, the emission condition of the `progress` closure given the
current watermark `last_progress`:
`(last is None or (f - last) > 0.05 or f == 1.0) and (last is None or f > last)`. -/
def shouldEmit : Option ℚ → ℚ → Bool
  | none, _ => true
  | some l, f => (decide ((f - l) > 0.05) || decide (f = 1.0)) && decide (f > l)

/-- Repeated invocation of the `progress` closure on a sequence of fed
fractions: returns the final watermark and the emitted subsequence (each
emission runs `do()`, which updates `last_progress` and writes a frame). -/
def progressRun (last : Option ℚ) : List ℚ → Option ℚ × List ℚ
  | [] => (last, [])
  | f :: fs =>
    if shouldEmit last f then
      let r := progressRun (some f) fs
      (r.1, f :: r.2)
    else
      progressRun last fs

/-- The emitted subsequence for a request that starts with no watermark. -/
def progressEmitted (l : List ℚ) : List ℚ :=
  (progressRun none l).2

/-- The `execute` branch (lines 95-105). Returns written frames, the effect
trace, and the uncaught exception if one is raised. -/
def handleExecute (eng : Engine) (catalog : Catalog) (mid : String) (m : Msg)
    (trusted : Bool) : List Frame × List Effect × Option PyExc :=
  match getKey m.df "df" with
  | .error e => ([], [], some e)
  | .ok name =>
    match lookupCatalog catalog name with
    | .error e => ([], [.catalogGet name], some e)
    | .ok ds0 =>
      let ds1 := eng.copy ds0
      match getKey m.state "state" with
      | .error e => ([], [.catalogGet name], some e)
      | .ok blob =>
        match eng.state_set ds1 blob trusted with
        | .error e => ([], [.catalogGet name], some e)
        | .ok ds2 =>
          match getKey m.tasks "tasks" with
          | .error e => ([], [.catalogGet name], some e)
          | .ok tenc =>
            match eng.decode_tasks tenc ds2 with
            | .error e => ([], [.catalogGet name], some e)
            | .ok tasks =>
              -- line 99: the engine drives the progress callback
              let emitted := progressEmitted (eng.exec_progress ds2 tasks)
              let pframes := emitted.map (fun f => Frame.mk mid (.progress f))
              match eng.exec_result ds2 tasks with
              | .error e => (pframes, [.catalogGet name, .execRun ds2 tasks], some e)
              | .ok res =>
                -- line 100: `last_progress = 1`
                let last2 : Option ℚ := some 1
                -- line 101: `progress(1, from_current_ioloop=True)`
                let finalFrames :=
                  if shouldEmit last2 1 then [Frame.mk mid (.progress 1)] else []
                (pframes ++ finalFrames ++
                   [Frame.mk mid (.result (eng.encode_task_results res))],
                 [.catalogGet name, .execRun ds2 tasks], none)

/-- The `call-dataframe` branch (lines 106-119). -/
def handleCall (eng : Engine) (catalog : Catalog) (mid : String) (m : Msg)
    (trusted : Bool) : List Frame × List Effect × Option PyExc :=
  match getKey m.df "df" with
  | .error e => ([], [], some e)
  | .ok name =>
    match lookupCatalog catalog name with
    | .error e => ([], [.catalogGet name], some e)
    | .ok ds0 =>
      let ds1 := eng.copy ds0
      match getKey m.state "state" with
      | .error e => ([], [.catalogGet name], some e)
      | .ok blob =>
        match eng.state_set ds1 blob trusted with
        | .error e => ([], [.catalogGet name], some e)
        | .ok ds2 =>
          match getKey m.method "method" with
          | .error e => ([], [.catalogGet name], some e)
          | .ok mth =>
            -- line 110: allow-list gate before `_rmi`
            if mth ∉ eng.allowed_method_names then
              ([], [.catalogGet name],
               some ⟨"NotImplementedError", "Method is not rmi invokable"⟩)
            else
              match getKey m.args "args" with
              | .error e => ([], [.catalogGet name], some e)
              | .ok args =>
                match getKey m.kwargs "kwargs" with
                | .error e => ([], [.catalogGet name], some e)
                | .ok kwargs =>
                  match eng.rmi ds2 mth args kwargs with
                  | .error e => ([], [.catalogGet name, .rmiRun mth], some e)
                  | .ok res =>
                    let enc := if mth = "_evaluate_implementation"
                               then eng.encode_eval res else eng.encode_rmi res
                    ([Frame.mk mid (.result enc)],
                     [.catalogGet name, .rmiRun mth], none)

/-- Body of `on_message` after the envelope fields are bound (lines 64-121):
auth gate, then command dispatch. -/
def handleBody (eng : Engine) (stoken stt : Tok) (catalog : Catalog)
    (mid : String) (m : Msg) (a : AuthCtx) : List Frame × List Effect × Option PyExc :=
  match getKey a.token "token" with
  | .error e => ([], [], some e)
  | .ok rtoken =>
    match getKey a.token_trusted "token-trusted" with
    | .error e => ([], [], some e)
    | .ok rtt =>
      let trusted := trustedOf stt rtt
      if authorized stoken stt rtoken rtt then
        match getKey m.command "command" with
        | .error e => ([], [], some e)
        | .ok c =>
          if c = "list" then
            ([Frame.mk mid (.result (eng.list_result catalog))], [.listRun], none)
          else if c = "execute" then
            handleExecute eng catalog mid m trusted
          else if c = "call-dataframe" then
            handleCall eng catalog mid m trusted
          else
            ([], [], some ⟨"ValueError", "Unknown command: " ++ c⟩)
      else
        ([], [], some ⟨"ValueError", "No token provided, not authorized"⟩)

/-- Result of handling one inbound frame: frames written, effect trace,
whether the handler closed the connection, and the resulting shared state. -/
structure HandlerOutput where
  frames : List Frame
  effects : List Effect
  closed : Bool
  state : ServerState
deriving Repr, DecidableEq

/-- `WebSocketHandler.on_message` (lines 55-126): `msg_id` starts as
`'invalid'`; the whole body runs under one `except Exception` that converts
any raised exception into an error envelope (lines 123-126). -/
def on_message (eng : Engine) (st : ServerState) (inbound : Inbound) : HandlerOutput :=
  match decodeEnvelope inbound with
  | .error e =>
    { frames := [Frame.mk "invalid" (.exception e.cls e.msg)],
      effects := [], closed := false, state := st }
  | .ok (mid, m, a) =>
    match handleBody eng st.token st.token_trusted st.catalog mid m a with
    | (frames, effs, none) =>
      { frames := frames, effects := effs, closed := false, state := st }
    | (frames, effs, some e) =>
      { frames := frames ++ [Frame.mk mid (.exception e.cls e.msg)],
        effects := effs, closed := false, state := st }

/-- Resubmitting the same inbound frame `n` times, threading the state. -/
def repeatRequest (eng : Engine) (inbound : Inbound) : Nat → ServerState → ServerState
  | 0, st => st
  | n + 1, st => repeatRequest eng inbound n (on_message eng st inbound).state

/-- Substring check over character lists (used to state that an error
message contains a command string). -/
def containsSub (needle : List Char) : List Char → Bool
  | [] => needle.isEmpty
  | c :: t => needle.isPrefixOf (c :: t) || containsSub needle t

/-- Substring check over strings. -/
def strContainsSub (needle hay : String) : Bool :=
  containsSub needle.data hay.data

/-! ### Concrete fixtures used by witnesses and counterexamples -/

/-- A concrete well-behaved external engine. -/
def engDemo : Engine where
  allowed_method_names := ["sum", "count"]
  list_result := fun cat => cat.length
  copy := id
  state_set := fun ds _ _ => .ok ds
  decode_tasks := fun t _ => .ok [t]
  exec_progress := fun _ _ => []
  exec_result := fun _ _ => .ok 42
  rmi := fun _ _ _ _ => .ok 7
  encode_eval := id
  encode_rmi := id
  encode_task_results := id

/-- A server with no tokens configured and one dataset `"a"`. -/
def stOpen : ServerState := ⟨none, none, [("a", 0)], [], []⟩

/-- A server protected by a plain token. -/
def stTok : ServerState := ⟨some "secret", none, [("a", 0)], [], []⟩

/-- Auth dict carrying `token=None, token-trusted=None`. -/
def authOpen : AuthCtx := ⟨some none, some none⟩

/-- A `list` request message. -/
def msgList : Msg := ⟨some "list", none, none, none, none, none, none⟩

/-- An `execute` request message on dataset `"a"`. -/
def msgExec : Msg := ⟨some "execute", some "a", some 0, some 5, none, none, none⟩

/-- An unknown-command request message. -/
def msgFrob : Msg := ⟨some "frobnicate", none, none, none, none, none, none⟩

/-- A `call-dataframe` request with a method outside the allow-list. -/
def msgBadCall : Msg :=
  ⟨some "call-dataframe", some "a", some 0, none, some "arbitrary_unsafe_call", some 1, some 2⟩

/-! ### Helper lemmas -/

theorem progressRun_cons_emit (last : Option ℚ) (f : ℚ) (fs : List ℚ)
    (h : shouldEmit last f = true) :
    progressRun last (f :: fs) =
      ((progressRun (some f) fs).1, f :: (progressRun (some f) fs).2) := by
  simp [progressRun, h]

theorem progressRun_cons_skip (last : Option ℚ) (f : ℚ) (fs : List ℚ)
    (h : shouldEmit last f = false) :
    progressRun last (f :: fs) = progressRun last fs := by
  simp [progressRun, h]

theorem on_message_state_eq (eng : Engine) (st : ServerState) (inbound : Inbound) :
    (on_message eng st inbound).state = st := by
  unfold on_message
  rcases hd : decodeEnvelope inbound with e | ⟨mid, m, a⟩
  · rfl
  · rcases hb : handleBody eng st.token st.token_trusted st.catalog mid m a with ⟨fr, effs, exc⟩
    cases exc <;> simp [hb]

theorem isPrefixOf_self (l : List Char) : l.isPrefixOf l = true := by
  induction l with
  | nil => rfl
  | cons c t ih => simp [List.isPrefixOf, ih]

theorem containsSub_append (p s : List Char) : containsSub s (p ++ s) = true := by
  induction p with
  | nil =>
    cases s with
    | nil => rfl
    | cons c t => simp [containsSub, isPrefixOf_self]
  | cons a p ih => simp [containsSub, ih]

theorem strContainsSub_append (p s : String) : strContainsSub s (p ++ s) = true := by
  simp [strContainsSub, String.data_append, containsSub_append]

/-! ### Claims -/

/-- C2, counterexample: with no server token configured (`token=None`) and a
request carrying the empty-string token `""`, the request is NOT authorized
(Python `"" == None` is false), contradicting the claim that an empty
request token satisfies the equality; on the wire the request draws the
auth error envelope. -/
theorem C2_counterexample :
    authorized none none (some "") none = false ∧
    (on_message engDemo stOpen
        (.envelope (some "m2") (some msgList) (some ⟨some (some ""), some none⟩))).frames
      = [Frame.mk "m2" (.exception "ValueError" "No token provided, not authorized")] := by
  constructor
  · rfl
  · rfl

/-- C2 (amended): the request is authorized iff the request token equals the
configured token, or the request trusted-token equals the configured
trusted token and the latter is truthy (non-`None`, non-empty); when the
server token is unset, an *unset* (`None`) request token is authorized —
but an empty-string request token is not (see the counterexample). -/
theorem C2_auth_gate (stoken stt rtoken rtt : Tok) :
    (authorized stoken stt rtoken rtt = true ↔
      (rtoken = stoken ∨ (rtt = stt ∧ truthy stt = true)))
    ∧ authorized none stt none rtt = true := by
  constructor
  · simp only [authorized, Bool.or_eq_true, Bool.and_eq_true, beq_iff_eq]
    tauto
  · simp [authorized]

/-- C10: whenever the inbound frame fails to deserialize or lacks one of the
`msg_id`/`msg`/`auth` envelope keys, the handler still sends an error
envelope, and its `msg_id` is the literal string `"invalid"`. -/
theorem C10_invalid_msg_id (eng : Engine) (st : ServerState) (inbound : Inbound)
    (e : PyExc) (h : decodeEnvelope inbound = .error e) :
    (on_message eng st inbound).frames = [Frame.mk "invalid" (.exception e.cls e.msg)] := by
  simp [on_message, h]

/-- C10 witness: a frame lacking the `msg` key draws a `KeyError` envelope
addressed to `"invalid"`. -/
theorem C10_invalid_msg_id_witness :
    (on_message engDemo stOpen (.envelope (some "chosen-id") none (some authOpen))).frames
      = [Frame.mk "invalid" (.exception "KeyError" "msg")] :=
  C10_invalid_msg_id engDemo stOpen (.envelope (some "chosen-id") none (some authOpen))
    ⟨"KeyError", "msg"⟩ rfl

theorem shouldEmit_iff (lo : Option ℚ) (f : ℚ) :
    shouldEmit lo f = true ↔
      ((lo = none ∨ (∃ l0, lo = some l0 ∧ (f - l0) > 0.05) ∨ f = 1.0) ∧
       (lo = none ∨ ∃ l0, lo = some l0 ∧ f > l0)) := by
  cases lo with
  | none => simp [shouldEmit]
  | some l =>
    simp only [shouldEmit, Bool.and_eq_true, Bool.or_eq_true, decide_eq_true_eq,
      Option.some.injEq, reduceCtorEq, false_or]
    constructor
    · rintro ⟨h1, h2⟩
      refine ⟨?_, l, rfl, h2⟩
      rcases h1 with h1 | h1
      · exact Or.inl ⟨l, rfl, h1⟩
      · exact Or.inr h1
    · rintro ⟨h1, l0, hl0, hgt⟩
      cases hl0
      refine ⟨?_, hgt⟩
      rcases h1 with ⟨l1, hl1, hd⟩ | h1
      · cases hl1; exact Or.inl hd
      · exact Or.inr h1

theorem progressRun_chain (l : List ℚ) (last : Option ℚ) :
    List.Chain' (· < ·) (last.toList ++ (progressRun last l).2) := by
  induction l generalizing last with
  | nil => cases last <;> simp [progressRun]
  | cons f fs ih =>
    by_cases h : shouldEmit last f = true
    · rw [progressRun_cons_emit last f fs h]
      have hrest := ih (some f)
      simp only [Option.toList_some, List.singleton_append] at hrest
      cases last with
      | none => simpa using hrest
      | some x =>
        have hxf : x < f := by
          simp only [shouldEmit, Bool.and_eq_true, decide_eq_true_eq] at h
          exact h.2
        simpa [List.chain'_cons] using And.intro hxf hrest
    · rw [progressRun_cons_skip last f fs (Bool.not_eq_true _ ▸ h)]
      exact ih last

theorem progressRun_one_mem (l : List ℚ) (last : Option ℚ)
    (hp : List.Pairwise (· ≤ ·) l)
    (hlast : ∀ x ∈ last, ∀ y ∈ l, x ≤ y)
    (h1 : (1 : ℚ) ∈ l) :
    last = some 1 ∨ (1 : ℚ) ∈ (progressRun last l).2 := by
  induction l generalizing last with
  | nil => simp at h1
  | cons f fs ih =>
    rcases List.pairwise_cons.mp hp with ⟨hf, hfs⟩
    by_cases he : shouldEmit last f = true
    · rw [progressRun_cons_emit last f fs he]
      rcases List.mem_cons.mp h1 with h1f | h1fs
      · right
        rw [← h1f]
        exact List.mem_cons_self _ _
      · have hnext : ∀ x ∈ (some f : Option ℚ), ∀ y ∈ fs, x ≤ y := by
          intro x hx y hy
          rw [Option.mem_some_iff] at hx
          rw [← hx]
          exact hf y hy
        rcases ih (some f) hfs hnext h1fs with heq | hmem
        · right
          rw [Option.some_inj] at heq
          rw [heq]
          exact List.mem_cons_self _ _
        · right
          exact List.mem_cons_of_mem _ hmem
    · rw [progressRun_cons_skip last f fs (Bool.not_eq_true _ ▸ he)]
      rcases List.mem_cons.mp h1 with h1f | h1fs
      · -- the fed value is 1 but was not emitted: the watermark is already 1
        left
        cases last with
        | none => simp [shouldEmit] at he
        | some x =>
          have hx1 : x ≤ 1 := by
            have := hlast x (by simp) f (List.mem_cons_self _ _)
            rw [← h1f] at this
            exact this
          have hx2 : ¬ x < 1 := by
            intro hlt
            apply he
            rw [← h1f]
            simp only [shouldEmit, Bool.and_eq_true, Bool.or_eq_true, decide_eq_true_eq]
            exact ⟨Or.inr (by norm_num), hlt⟩
          have : x = 1 := le_antisymm hx1 (not_lt.mp hx2)
          rw [this]
      · exact ih last hfs
          (fun x hx y hy => hlast x hx y (List.mem_cons_of_mem _ hy)) h1fs

/-- C4: for a non-decreasing fed sequence, the `progress` closure emits `f`
exactly when `(last unset ∨ f - last > 0.05 ∨ f = 1.0) ∧ (last unset ∨
f > last)`; the emitted subsequence is strictly increasing, starts with the
first fed value, and contains `1.0` whenever `1.0` is fed. -/
theorem C4_progress_reporter (l : List ℚ) (hmono : List.Chain' (· ≤ ·) l) :
    (∀ (lo : Option ℚ) (f : ℚ), shouldEmit lo f = true ↔
      ((lo = none ∨ (∃ l0, lo = some l0 ∧ (f - l0) > 0.05) ∨ f = 1.0) ∧
       (lo = none ∨ ∃ l0, lo = some l0 ∧ f > l0)))
    ∧ List.Chain' (· < ·) (progressEmitted l)
    ∧ (∀ f fs, l = f :: fs → progressEmitted l = f :: (progressRun (some f) fs).2)
    ∧ ((1 : ℚ) ∈ l → (1 : ℚ) ∈ progressEmitted l) := by
  refine ⟨shouldEmit_iff, ?_, ?_, ?_⟩
  · have := progressRun_chain l none
    simpa [progressEmitted] using this
  · intro f fs hl
    rw [hl]
    simp [progressEmitted, progressRun_cons_emit none f fs rfl]
  · intro h1
    have hp : List.Pairwise (· ≤ ·) l := List.chain'_iff_pairwise.mp hmono
    rcases progressRun_one_mem l none hp (by simp) h1 with heq | hmem
    · cases heq
    · exact hmem

/-- C4 witness: a concrete non-decreasing feed; its emitted subsequence is
strictly increasing and contains the final `1.0`. -/
theorem C4_progress_reporter_witness :
    List.Chain' (· ≤ ·) [(0.1 : ℚ), 0.12, 0.5, 1] ∧
    List.Chain' (· < ·) (progressEmitted [(0.1 : ℚ), 0.12, 0.5, 1]) ∧
    (1 : ℚ) ∈ progressEmitted [(0.1 : ℚ), 0.12, 0.5, 1] :=
  ⟨by norm_num [List.chain'_cons],
   (C4_progress_reporter [(0.1 : ℚ), 0.12, 0.5, 1] (by norm_num [List.chain'_cons])).2.1,
   (C4_progress_reporter [(0.1 : ℚ), 0.12, 0.5, 1]
      (by norm_num [List.chain'_cons])).2.2.2 (by norm_num)⟩

/-- C1: code bug. Line 100 sets `last_progress = 1` immediately before the
final `progress(1, from_current_ioloop=True)` call of line 101, so that
call's guard `(f - last > 0.05 or f == 1.0) and (f > last)` is false and the
promised final `1.0` progress frame is never written. Concretely: an
`execute` request during which the engine never invokes the progress
callback completes with only the result frame — no progress frame at all,
in particular none with fraction `1.0`. -/
theorem C1_final_progress_suppressed :
    shouldEmit (some 1) 1 = false ∧
    (on_message engDemo stOpen
        (.envelope (some "m1") (some msgExec) (some authOpen))).frames
      = [Frame.mk "m1" (.result 42)] := by
  have hse : shouldEmit (some 1) 1 = false := by simp [shouldEmit]
  refine ⟨hse, ?_⟩
  simp [on_message, decodeEnvelope, getKey, handleBody, handleExecute, authorized,
    trustedOf, truthy, lookupCatalog, engDemo, stOpen, msgExec, authOpen,
    progressEmitted, progressRun, hse]

/-- C5: every exception raised while decoding the envelope or handling the
body is caught by the per-message boundary and turned into an error
envelope carrying exactly the exception's class name and message, and the
handler never closes the connection. -/
theorem C5_failure_boundary (eng : Engine) (st : ServerState) (inbound : Inbound) :
    (on_message eng st inbound).closed = false ∧
    (∀ e, decodeEnvelope inbound = Except.error e →
       (on_message eng st inbound).frames
         = [Frame.mk "invalid" (.exception e.cls e.msg)]) ∧
    (∀ mid m a frames effs e,
       decodeEnvelope inbound = Except.ok (mid, m, a) →
       handleBody eng st.token st.token_trusted st.catalog mid m a
         = (frames, effs, some e) →
       (on_message eng st inbound).frames
         = frames ++ [Frame.mk mid (.exception e.cls e.msg)]) := by
  refine ⟨?_, ?_, ?_⟩
  · unfold on_message
    rcases hd : decodeEnvelope inbound with e | ⟨mid, m, a⟩
    · rfl
    · rcases hb : handleBody eng st.token st.token_trusted st.catalog mid m a
        with ⟨fr, effs, exc⟩
      cases exc <;> simp [hb]
  · intro e hd
    simp [on_message, hd]
  · intro mid m a frames effs e hd hb
    simp [on_message, hd, hb]

/-- C5 witness: an undeserializable frame is answered with its exception
envelope and the connection stays open. -/
theorem C5_failure_boundary_witness :
    (on_message engDemo stOpen (.garbage ⟨"ValueError", "bad frame"⟩)).closed = false ∧
    (on_message engDemo stOpen (.garbage ⟨"ValueError", "bad frame"⟩)).frames
      = [Frame.mk "invalid" (.exception "ValueError" "bad frame")] :=
  ⟨(C5_failure_boundary engDemo stOpen (.garbage ⟨"ValueError", "bad frame"⟩)).1,
   (C5_failure_boundary engDemo stOpen (.garbage ⟨"ValueError", "bad frame"⟩)).2.1
     ⟨"ValueError", "bad frame"⟩ rfl⟩

theorem handleExecute_frames_msg_id (eng : Engine) (catalog : Catalog) (mid : String)
    (m : Msg) (trusted : Bool) :
    ∀ fr ∈ (handleExecute eng catalog mid m trusted).1, fr.msg_id = mid := by
  intro fr hfr
  simp only [handleExecute] at hfr
  repeat' split at hfr
  all_goals simp only [List.mem_append, List.mem_map, List.mem_singleton,
    List.not_mem_nil, List.mem_cons, or_false, false_or] at hfr
  all_goals
    first
    | (rcases hfr with (⟨a, -, rfl⟩ | rfl) | rfl <;> rfl)
    | (rcases hfr with ⟨a, -, rfl⟩ | rfl <;> rfl)
    | (obtain ⟨a, -, rfl⟩ := hfr; rfl)

theorem handleCall_frames_msg_id (eng : Engine) (catalog : Catalog) (mid : String)
    (m : Msg) (trusted : Bool) :
    ∀ fr ∈ (handleCall eng catalog mid m trusted).1, fr.msg_id = mid := by
  intro fr hfr
  simp only [handleCall] at hfr
  repeat' split at hfr
  all_goals simp_all

theorem handleBody_frames_msg_id (eng : Engine) (stoken stt : Tok) (catalog : Catalog)
    (mid : String) (m : Msg) (a : AuthCtx) :
    ∀ fr ∈ (handleBody eng stoken stt catalog mid m a).1, fr.msg_id = mid := by
  intro fr hfr
  simp only [handleBody] at hfr
  repeat' split at hfr
  all_goals
    first
    | exact handleExecute_frames_msg_id eng catalog mid m _ fr hfr
    | exact handleCall_frames_msg_id eng catalog mid m _ fr hfr
    | simp_all

/-- C6: once the envelope fields are successfully bound, every outbound
frame for the message — progress, result or error — carries the request's
`msg_id`. -/
theorem C6_msg_id_consistent (eng : Engine) (st : ServerState) (inbound : Inbound)
    (mid : String) (m : Msg) (a : AuthCtx)
    (h : decodeEnvelope inbound = Except.ok (mid, m, a)) :
    ∀ fr ∈ (on_message eng st inbound).frames, fr.msg_id = mid := by
  intro fr hfr
  rcases hb : handleBody eng st.token st.token_trusted st.catalog mid m a
    with ⟨frames, effs, exc⟩
  have hframes := handleBody_frames_msg_id eng st.token st.token_trusted st.catalog mid m a
  rw [hb] at hframes
  unfold on_message at hfr
  rw [h] at hfr
  simp only [hb] at hfr
  cases exc with
  | none => exact hframes fr hfr
  | some e =>
    rcases List.mem_append.mp hfr with hl | hr
    · exact hframes fr hl
    · simp only [List.mem_singleton] at hr
      rw [hr]

/-- C6 witness: the result frame of a concrete `list` request carries the
request's `msg_id` `"w6"`. -/
theorem C6_msg_id_consistent_witness :
    (Frame.mk "w6" (Payload.result 1)).msg_id = "w6" :=
  C6_msg_id_consistent engDemo stOpen
    (.envelope (some "w6") (some msgList) (some authOpen)) "w6" msgList authOpen rfl
    (Frame.mk "w6" (Payload.result 1))
    (by
      rw [show (on_message engDemo stOpen
            (.envelope (some "w6") (some msgList) (some authOpen))).frames
          = [Frame.mk "w6" (Payload.result 1)] from rfl]
      exact List.mem_cons_self _ _)

theorem handleCall_not_allowed (eng : Engine) (catalog : Catalog) (mid : String)
    (m : Msg) (trusted : Bool) (mth : String)
    (hm : m.method = some mth) (hna : mth ∉ eng.allowed_method_names) :
    ∃ e effs, handleCall eng catalog mid m trusted = ([], effs, some e) ∧
      ∀ name, Effect.rmiRun name ∉ effs := by
  unfold handleCall
  rcases hdf : getKey m.df "df" with e | name
  · exact ⟨e, [], rfl, by simp⟩
  · simp only
    rcases hlc : lookupCatalog catalog name with e | ds0
    · exact ⟨e, [.catalogGet name], rfl, by simp⟩
    · simp only
      rcases hst : getKey m.state "state" with e | blob
      · exact ⟨e, [.catalogGet name], rfl, by simp⟩
      · simp only
        rcases hss : eng.state_set (eng.copy ds0) blob trusted with e | ds2
        · exact ⟨e, [.catalogGet name], rfl, by simp⟩
        · simp only
          rw [hm]
          simp only [getKey]
          rw [if_pos hna]
          exact ⟨⟨"NotImplementedError", "Method is not rmi invokable"⟩,
            [.catalogGet name], rfl, by simp⟩

/-- C3: a `call-dataframe` request whose method is outside the allow-list is
answered with an error envelope and the RMI is never performed. -/
theorem C3_disallowed_method_rejected (eng : Engine) (st : ServerState) (mid : String)
    (m : Msg) (a : AuthCtx) (mth : String)
    (hcmd : m.command = some "call-dataframe")
    (hm : m.method = some mth)
    (hna : mth ∉ eng.allowed_method_names) :
    (∃ c s, (on_message eng st (.envelope (some mid) (some m) (some a))).frames
        = [Frame.mk mid (.exception c s)]) ∧
    (∀ name, Effect.rmiRun name ∉
        (on_message eng st (.envelope (some mid) (some m) (some a))).effects) := by
  have hd : decodeEnvelope (.envelope (some mid) (some m) (some a))
      = Except.ok (mid, m, a) := rfl
  have hbody : ∃ e effs, handleBody eng st.token st.token_trusted st.catalog mid m a
      = ([], effs, some e) ∧ ∀ name, Effect.rmiRun name ∉ effs := by
    unfold handleBody
    rcases h1 : getKey a.token "token" with e | rtoken
    · exact ⟨e, [], rfl, by simp⟩
    · simp only
      rcases h2 : getKey a.token_trusted "token-trusted" with e | rtt
      · exact ⟨e, [], rfl, by simp⟩
      · simp only
        by_cases hauth : authorized st.token st.token_trusted rtoken rtt = true
        · simp only [hauth, if_true]
          rw [hcmd]
          simp only [getKey]
          norm_num
          exact handleCall_not_allowed eng st.catalog mid m _ mth hm hna
        · rw [if_neg hauth]
          exact ⟨⟨"ValueError", "No token provided, not authorized"⟩, [], rfl, by simp⟩
  obtain ⟨e, effs, heq, hno⟩ := hbody
  constructor
  · refine ⟨e.cls, e.msg, ?_⟩
    unfold on_message
    rw [hd]
    simp only [heq, List.nil_append]
  · intro name
    unfold on_message
    rw [hd]
    simp only [heq]
    exact hno name

/-- C3 witness: `method="arbitrary_unsafe_call"` is rejected without any RMI
effect. -/
theorem C3_disallowed_method_rejected_witness :
    ("arbitrary_unsafe_call" ∉ engDemo.allowed_method_names) ∧
    (∃ c s, (on_message engDemo stOpen
        (.envelope (some "m3") (some msgBadCall) (some authOpen))).frames
        = [Frame.mk "m3" (.exception c s)]) ∧
    Effect.rmiRun "arbitrary_unsafe_call" ∉ (on_message engDemo stOpen
        (.envelope (some "m3") (some msgBadCall) (some authOpen))).effects :=
  ⟨by decide,
   (C3_disallowed_method_rejected engDemo stOpen "m3" msgBadCall authOpen
      "arbitrary_unsafe_call" rfl rfl (by decide)).1,
   (C3_disallowed_method_rejected engDemo stOpen "m3" msgBadCall authOpen
      "arbitrary_unsafe_call" rfl rfl (by decide)).2 "arbitrary_unsafe_call"⟩

/-- C7, counterexample: an unknown command sent with bad credentials is
answered with the auth error, whose message does not contain the command
string, refuting the claim as stated for unauthorized requests. -/
theorem C7_counterexample :
    (on_message engDemo stTok (.envelope (some "m7") (some msgFrob) (some authOpen))).frames
      = [Frame.mk "m7" (.exception "ValueError" "No token provided, not authorized")] ∧
    strContainsSub "frobnicate" "No token provided, not authorized" = false :=
  ⟨rfl, rfl⟩

/-- C7 (amended): for every *authorized* request whose command is none of
`list`/`execute`/`call-dataframe`, the handler responds with a single error
envelope whose message contains the literal command string and whose
`msg_id` is the request's. -/
theorem C7_unknown_command (eng : Engine) (st : ServerState) (mid : String)
    (m : Msg) (a : AuthCtx) (rtoken rtt : Tok) (c : String)
    (htok : a.token = some rtoken) (htt : a.token_trusted = some rtt)
    (hauth : authorized st.token st.token_trusted rtoken rtt = true)
    (hc : m.command = some c)
    (h1 : c ≠ "list") (h2 : c ≠ "execute") (h3 : c ≠ "call-dataframe") :
    (on_message eng st (.envelope (some mid) (some m) (some a))).frames
      = [Frame.mk mid (.exception "ValueError" ("Unknown command: " ++ c))] ∧
    strContainsSub c ("Unknown command: " ++ c) = true := by
  have hd : decodeEnvelope (.envelope (some mid) (some m) (some a))
      = Except.ok (mid, m, a) := rfl
  have hbody : handleBody eng st.token st.token_trusted st.catalog mid m a
      = ([], [], some ⟨"ValueError", "Unknown command: " ++ c⟩) := by
    unfold handleBody
    rw [htok]
    simp only [getKey]
    rw [htt]
    simp only [getKey]
    simp only [hauth, if_true]
    rw [hc]
    simp only [getKey]
    rw [if_neg h1, if_neg h2, if_neg h3]
  constructor
  · unfold on_message
    rw [hd]
    simp only [hbody, List.nil_append]
  · exact strContainsSub_append "Unknown command: " c

/-- C7 witness: `{command: "frobnicate"}` on an open server yields the
UnknownCommand envelope carrying the command string and the request id. -/
theorem C7_unknown_command_witness :
    (on_message engDemo stOpen (.envelope (some "w7") (some msgFrob) (some authOpen))).frames
      = [Frame.mk "w7" (.exception "ValueError" ("Unknown command: " ++ "frobnicate"))] ∧
    strContainsSub "frobnicate" ("Unknown command: " ++ "frobnicate") = true :=
  C7_unknown_command engDemo stOpen "w7" msgFrob authOpen none none "frobnicate"
    rfl rfl rfl rfl (by decide) (by decide) (by decide)

/-- C8: an unauthorized request draws the auth error envelope before any
command logic runs — no effects, state unchanged — and resubmitting it any
number of times leaves the catalog and caches untouched. -/
theorem C8_unauthorized_no_mutation (eng : Engine) (st : ServerState) (mid : String)
    (m : Msg) (a : AuthCtx) (rtoken rtt : Tok)
    (htok : a.token = some rtoken) (htt : a.token_trusted = some rtt)
    (hauth : authorized st.token st.token_trusted rtoken rtt = false) :
    (on_message eng st (.envelope (some mid) (some m) (some a))).frames
      = [Frame.mk mid (.exception "ValueError" "No token provided, not authorized")] ∧
    (on_message eng st (.envelope (some mid) (some m) (some a))).effects = [] ∧
    (on_message eng st (.envelope (some mid) (some m) (some a))).state = st ∧
    (∀ n, repeatRequest eng (.envelope (some mid) (some m) (some a)) n st = st) := by
  have hd : decodeEnvelope (.envelope (some mid) (some m) (some a))
      = Except.ok (mid, m, a) := rfl
  have hbody : handleBody eng st.token st.token_trusted st.catalog mid m a
      = ([], [], some ⟨"ValueError", "No token provided, not authorized"⟩) := by
    unfold handleBody
    rw [htok]
    simp only [getKey]
    rw [htt]
    simp only [getKey]
    rw [if_neg (by simp [hauth])]
  refine ⟨?_, ?_, on_message_state_eq eng st _, ?_⟩
  · unfold on_message
    rw [hd]
    simp only [hbody, List.nil_append]
  · unfold on_message
    rw [hd]
    simp only [hbody]
  · intro n
    induction n with
    | zero => rfl
    | succ k ih =>
      show repeatRequest eng _ k (on_message eng st _).state = st
      rw [on_message_state_eq]
      exact ih

/-- C8 witness: a tokenless request against a token-protected server,
resubmitted three times, never changes the server state. -/
theorem C8_unauthorized_no_mutation_witness :
    (on_message engDemo stTok (.envelope (some "w8") (some msgList) (some authOpen))).frames
      = [Frame.mk "w8" (.exception "ValueError" "No token provided, not authorized")] ∧
    (on_message engDemo stTok (.envelope (some "w8") (some msgList) (some authOpen))).effects
      = [] ∧
    repeatRequest engDemo (.envelope (some "w8") (some msgList) (some authOpen)) 3 stTok
      = stTok :=
  have h := C8_unauthorized_no_mutation engDemo stTok "w8" msgList authOpen none none
    rfl rfl rfl
  ⟨h.1, h.2.1, h.2.2.2 3⟩

theorem handleExecute_effects_no_cache (eng : Engine) (catalog : Catalog) (mid : String)
    (m : Msg) (trusted : Bool) :
    ∀ eff ∈ (handleExecute eng catalog mid m trusted).2.1, eff.isCacheOp = false := by
  intro eff heff
  simp only [handleExecute] at heff
  repeat' split at heff
  all_goals simp_all [Effect.isCacheOp]
  all_goals rcases heff with rfl | rfl <;> rfl

theorem handleCall_effects_no_cache (eng : Engine) (catalog : Catalog) (mid : String)
    (m : Msg) (trusted : Bool) :
    ∀ eff ∈ (handleCall eng catalog mid m trusted).2.1, eff.isCacheOp = false := by
  intro eff heff
  simp only [handleCall] at heff
  repeat' split at heff
  all_goals simp_all [Effect.isCacheOp]
  all_goals rcases heff with rfl | rfl <;> rfl

theorem handleBody_effects_no_cache (eng : Engine) (stoken stt : Tok) (catalog : Catalog)
    (mid : String) (m : Msg) (a : AuthCtx) :
    ∀ eff ∈ (handleBody eng stoken stt catalog mid m a).2.1, eff.isCacheOp = false := by
  intro eff heff
  simp only [handleBody] at heff
  repeat' split at heff
  all_goals
    first
    | exact handleExecute_effects_no_cache eng catalog mid m _ eff heff
    | exact handleCall_effects_no_cache eng catalog mid m _ eff heff
    | simp_all [Effect.isCacheOp]

/-- C9: the message handler is independent of both result caches — its
frames and effect trace are unchanged when the cache contents change, no
cache operation ever appears in its trace, and both caches come out as they
went in (they are dead state in the protocol layer). -/
theorem C9_caches_dead (eng : Engine) (t tt : Tok) (cat : Catalog)
    (c1 s1 c2 s2 : Cache) (inbound : Inbound) :
    (on_message eng ⟨t, tt, cat, c1, s1⟩ inbound).frames
      = (on_message eng ⟨t, tt, cat, c2, s2⟩ inbound).frames ∧
    (on_message eng ⟨t, tt, cat, c1, s1⟩ inbound).effects
      = (on_message eng ⟨t, tt, cat, c2, s2⟩ inbound).effects ∧
    (∀ eff ∈ (on_message eng ⟨t, tt, cat, c1, s1⟩ inbound).effects,
       eff.isCacheOp = false) ∧
    (on_message eng ⟨t, tt, cat, c1, s1⟩ inbound).state.cache = c1 ∧
    (on_message eng ⟨t, tt, cat, c1, s1⟩ inbound).state.cache_selection = s1 := by
  refine ⟨?_, ?_, ?_, ?_, ?_⟩
  · unfold on_message
    rcases hd : decodeEnvelope inbound with e | ⟨mid, m, a⟩
    · rfl
    · rcases hb : handleBody eng t tt cat mid m a with ⟨fr, effs, exc⟩
      cases exc <;> simp [hb]
  · unfold on_message
    rcases hd : decodeEnvelope inbound with e | ⟨mid, m, a⟩
    · rfl
    · rcases hb : handleBody eng t tt cat mid m a with ⟨fr, effs, exc⟩
      cases exc <;> simp [hb]
  · intro eff heff
    unfold on_message at heff
    rcases hd : decodeEnvelope inbound with e | ⟨mid, m, a⟩
    · rw [hd] at heff
      simp at heff
    · rw [hd] at heff
      have hno := handleBody_effects_no_cache eng t tt cat mid m a
      rcases hb : handleBody eng t tt cat mid m a with ⟨fr, effs, exc⟩
      rw [hb] at hno
      simp only [hb] at heff
      cases exc with
      | none => exact hno eff heff
      | some e => exact hno eff heff
  · rw [on_message_state_eq]
  · rw [on_message_state_eq]

/-- C9 witness: a concrete request behaves identically under two different
cache contents and leaves them in place. -/
theorem C9_caches_dead_witness :
    (on_message engDemo ⟨none, none, [("a", 0)], [(1, 1)], [(2, 2)]⟩
        (.envelope (some "w9") (some msgList) (some authOpen))).frames
      = (on_message engDemo ⟨none, none, [("a", 0)], [(3, 3)], [(4, 4)]⟩
        (.envelope (some "w9") (some msgList) (some authOpen))).frames ∧
    Effect.isCacheOp .listRun = false ∧
    (on_message engDemo ⟨none, none, [("a", 0)], [(1, 1)], [(2, 2)]⟩
        (.envelope (some "w9") (some msgList) (some authOpen))).state.cache = [(1, 1)] :=
  have h := C9_caches_dead engDemo none none [("a", 0)] [(1, 1)] [(2, 2)] [(3, 3)] [(4, 4)]
    (.envelope (some "w9") (some msgList) (some authOpen))
  ⟨h.1,
   h.2.2.1 .listRun (by
     rw [show (on_message engDemo ⟨none, none, [("a", 0)], [(1, 1)], [(2, 2)]⟩
           (.envelope (some "w9") (some msgList) (some authOpen))).effects
         = [Effect.listRun] from rfl]
     exact List.mem_cons_self _ _),
   h.2.2.2.1⟩

end VaexServer
